import Mathlib

/-!
Verification of the Job Evaluation and Distribution Pipeline
(apps/jobsrapper: llm_filter.py, email_sender.py, config.py, main.py).

Shallow embedding notes:
* Python job dicts become the `Job` structure; a field that can be missing,
  `None`, or NaN is an `Option String` (the code treats all three alike via
  `_safe_str` / `dict.get`).
* The external JSON decoder (`json.loads`) and the external HTTP judge
  (OpenRouter) are collaborators outside this repository; they are
  parameters (`jsonDecode`, `callJudge`) of the embedded functions.
* The echo keys `job_title` / `company` that every evaluation dict carries
  are pure metadata never read by any downstream decision and are omitted
  from `Evaluation`; the `skipped` and `error` marker keys are kept because
  the result-processing loop branches on `skipped`.
-/

/-- The structured verdict produced for one posting (the result dicts built in
llm_filter.py: `_parse_response`, the skip branch and the error branches of
`evaluate_job_async`). -/
structure Evaluation where
  keyword_match : Bool
  visa_sponsorship : Bool
  entry_level : Bool
  requires_phd : Bool
  is_internship : Bool
  reason : String
  skipped : Bool
  error : Bool
deriving DecidableEq, Repr

/-- A scraped job posting record (a Python dict in the source).  The
`llm_evaluation` key is absent (`none`) until `filter_jobs_async` attaches a
verdict to a job that passed all filters. -/
structure Job where
  title : Option String := none
  company : Option String := none
  location : Option String := none
  description : Option String := none
  job_url : Option String := none
  site : Option String := none
  llm_evaluation : Option Evaluation := none
deriving DecidableEq, Repr

/-- Recipient configuration (config.py, dataclass `Recipient`). -/
structure Recipient where
  email : String
  needs_sponsorship : Bool
  search_terms : List String
deriving DecidableEq, Repr

/-- The JSON object `json.loads` may extract from a judge response, restricted
to the fields `_parse_response` reads; each field is `none` when absent from
the parsed object. -/
structure ParsedJson where
  keyword_match : Option Bool := none
  visa_sponsorship : Option Bool := none
  entry_level : Option Bool := none
  requires_phd : Option Bool := none
  is_internship : Option Bool := none
  reason : Option String := none
deriving DecidableEq, Repr

/-- Outcome of one HTTP call to the external judge (`_call_openrouter`):
either the assistant text of a 200 response, or an `OpenRouterError`. -/
inductive JudgeOutcome where
  | ok (text : String)
  | err (msg : String)
deriving DecidableEq, Repr

/-- Python `_safe_str(value, default)` (llm_filter.py): `None`/NaN become the
default, everything else is used as a string. -/
def safe_str (value : Option String) (default : String) : String :=
  value.getD default

/-- Whether `pat` is an initial run of `s` (helper for the substring test). -/
def list_is_init : List Char → List Char → Bool
  | [], _ => true
  | _ :: _, [] => false
  | p :: ps, c :: cs => (p == c) && list_is_init ps cs

/-- Whether `pat` occurs as a contiguous sublist of the second list. -/
def list_contains_sub (pat : List Char) : List Char → Bool
  | [] => pat.isEmpty
  | c :: cs => list_is_init pat (c :: cs) || list_contains_sub pat cs

/-- Python `str.lower()` (ASCII; every string the code lowercases here is
ASCII). -/
def py_lower (s : String) : String :=
  String.mk (s.data.map Char.toLower)

/-- Python whitespace as recognised by `str.strip()`. -/
def is_py_space (c : Char) : Bool :=
  c = ' ' || c = '\t' || c = '\n' || c = '\r' || c = '\x0b' || c = '\x0c'

/-- Python `str.strip()`. -/
def py_strip (s : String) : String :=
  String.mk (((s.data.dropWhile is_py_space).reverse.dropWhile is_py_space).reverse)

/-- Python's substring test `pat in s`. -/
def str_contains (s pat : String) : Bool :=
  list_contains_sub pat.data s.data

/-- Python `s.find(c)`: index of the first occurrence, `-1` when absent. -/
def py_find (s : String) (c : Char) : Int :=
  match s.data.findIdx? (fun a => a == c) with
  | some i => (i : Int)
  | none => -1

/-- Python `s.rfind(c)`: index of the last occurrence, `-1` when absent. -/
def py_rfind (s : String) (c : Char) : Int :=
  match s.data.reverse.findIdx? (fun a => a == c) with
  | some i => ((s.data.length - 1 - i : Nat) : Int)
  | none => -1

/-- Python slice `l[0 : stop]` for a possibly negative `stop`. -/
def py_slice_to {α : Type} (l : List α) (stop : Int) : List α :=
  let n : Int := (l.length : Int)
  let stopClamped : Int := if stop < 0 then max 0 (n + stop) else min stop n
  l.take stopClamped.toNat

/-- The substring `response_text[start:end]` that `_parse_response` hands to
`json.loads`, where `start` is the first `\x7b` and `end` is one past the
last `\x7d`. -/
def extract_json (response_text : String) : String :=
  String.mk ((response_text.data.drop (py_find response_text '{').toNat).take
    (py_rfind response_text '}' + 1 - py_find response_text '{').toNat)

/-- The permissive default verdict `_parse_response` returns when
`json.loads` raises `JSONDecodeError`. -/
def json_error_evaluation : Evaluation :=
  { keyword_match := true
    visa_sponsorship := true
    entry_level := true
    requires_phd := false
    is_internship := false
    reason := "JSON parse error - defaulting to pass"
    skipped := false
    error := false }

/-- The text-scan fallback branch of `_parse_response`, taken when the
response holds no `\x7b` ... `\x7d` pair. -/
def fallback_text_scan (response_text : String) : Evaluation :=
  let response_lower := py_lower response_text
  { keyword_match := str_contains response_lower "keyword_match\": true"
      || str_contains response_lower "keyword_match\":true"
    visa_sponsorship := str_contains response_lower "visa_sponsorship\": true"
      || !(str_contains response_lower "no sponsor")
    entry_level := str_contains response_lower "entry_level\": true"
    requires_phd := str_contains response_lower "requires_phd\": true"
    is_internship := str_contains response_lower "is_internship\": true"
    reason := "Parsed from text response"
    skipped := false
    error := false }

/-- `_parse_response` (llm_filter.py): locate the JSON object between the
first `\x7b` and the last `\x7d`; decode it and apply per-field permissive
defaults; fall back to a text scan when no such pair exists, and to the
permissive default verdict when decoding fails. -/
def parse_response (jsonDecode : String → Option ParsedJson)
    (response_text : String) : Evaluation :=
  let start := py_find response_text '{'
  let stop := py_rfind response_text '}' + 1
  if 0 ≤ start ∧ start < stop then
    match jsonDecode (extract_json response_text) with
    | some result =>
      { keyword_match := result.keyword_match.getD true
        visa_sponsorship := result.visa_sponsorship.getD true
        entry_level := result.entry_level.getD true
        requires_phd := result.requires_phd.getD false
        is_internship := result.is_internship.getD false
        reason := result.reason.getD ""
        skipped := false
        error := false }
    | none => json_error_evaluation
  else
    fallback_text_scan response_text

/-- The skip verdict of `evaluate_job_async` for a posting with no or very
short description. -/
def skip_evaluation : Evaluation :=
  { keyword_match := false
    visa_sponsorship := false
    entry_level := false
    requires_phd := false
    is_internship := false
    reason := "No description available - skipped"
    skipped := true
    error := false }

/-- The permissive verdict `evaluate_job_async` returns when the judge call
raises (`OpenRouterError` branch; the generic `Exception` branch builds the
same verdict with an `Error:` reason). -/
def api_error_evaluation (msg : String) : Evaluation :=
  { keyword_match := true
    visa_sponsorship := true
    entry_level := true
    requires_phd := false
    is_internship := false
    reason := "API error: " ++ msg
    skipped := false
    error := true }

/-- `evaluate_job_async` (llm_filter.py): short-circuit postings whose
description is missing or under 50 characters; otherwise call the external
judge and parse its response, degrading to a permissive verdict on error. -/
def evaluate_job (jsonDecode : String → Option ParsedJson)
    (callJudge : Job → List String → JudgeOutcome)
    (job : Job) (search_terms : List String) : Evaluation :=
  let desc := safe_str job.description ""
  if desc = "" ∨ desc.length < 50 then
    skip_evaluation
  else
    match callJudge job search_terms with
    | .ok response_text => parse_response jsonDecode response_text
    | .err e => api_error_evaluation e

/-- `should_include_job` (llm_filter.py): accept policy over a verdict. -/
def should_include_job (evaluation : Evaluation) : Bool :=
  evaluation.keyword_match &&
  evaluation.visa_sponsorship &&
  evaluation.entry_level &&
  !evaluation.requires_phd &&
  !evaluation.is_internship

/-- The result-processing loop at the end of `filter_jobs_async`: walk the
(job, evaluation) pairs, skip rejected ones, attach the verdict to each
accepted job.  (The exclusion counters are observability-only prints.) -/
def process_results : List (Job × Evaluation) → List Job
  | [] => []
  | (job, evaluation) :: rest =>
    if evaluation.skipped then process_results rest
    else if !evaluation.keyword_match then process_results rest
    else if !evaluation.visa_sponsorship then process_results rest
    else if !evaluation.entry_level then process_results rest
    else if evaluation.requires_phd then process_results rest
    else if evaluation.is_internship then process_results rest
    else { job with llm_evaluation := some evaluation } :: process_results rest

/-- The evaluated (job, verdict) pairs `filter_jobs_async` actually collects:
after the `total == 0` early return it slices `jobs_list[idx : idx +
concurrency]` once with `idx = 0`, pairs each job of that slice with its own
task result, and never loops back for further batches. -/
def evaluated_results (jsonDecode : String → Option ParsedJson)
    (callJudge : Job → List String → JudgeOutcome)
    (concurrency : Int) (jobs_list : List Job)
    (search_terms : List String) : List (Job × Evaluation) :=
  if jobs_list.length = 0 then []
  else
    (py_slice_to jobs_list concurrency).map
      (fun job => (job, evaluate_job jsonDecode callJudge job search_terms))

/-- `OpenRouterLLMFilter.filter_jobs_async` (llm_filter.py), with the
instance attribute `self.concurrency` as set unchanged by `__init__`. -/
def filter_jobs_async (jsonDecode : String → Option ParsedJson)
    (callJudge : Job → List String → JudgeOutcome)
    (concurrency : Int) (jobs_list : List Job)
    (search_terms : List String) : List Job :=
  process_results (evaluated_results jsonDecode callJudge concurrency jobs_list search_terms)

/-- Normalisation `term.lower().strip()` applied on both sides of the term
match in `filter_jobs_for_recipient`. -/
def norm_term (t : String) : String :=
  py_strip (py_lower t)

/-- The `seen_urls` deduplication loop of `filter_jobs_for_recipient` (also
reused verbatim by Step 5 of `JobHunterSentinel.run`): keep a job only when
its `job_url` is present, non-empty (Python truthiness) and not seen yet;
the first occurrence of each url wins. -/
def dedup_by_url (seen : List String) : List Job → List Job
  | [] => []
  | job :: rest =>
    match job.job_url with
    | some url =>
      if url ≠ "" ∧ url ∉ seen then job :: dedup_by_url (url :: seen) rest
      else dedup_by_url seen rest
    | none => dedup_by_url seen rest

/-- The term-matching union step of `filter_jobs_for_recipient`
(email_sender.py): extend `recipient_jobs` with the job list of every term
whose normalised form is among the recipient's normalised search terms. -/
def router_union (jobs_by_term : List (String × List Job))
    (recipient : Recipient) : List Job :=
  let recipient_terms_lower := recipient.search_terms.map norm_term
  ((jobs_by_term.filter
      (fun p => decide (norm_term p.1 ∈ recipient_terms_lower))).map
    (fun p => p.2)).flatten

/-- The sponsorship predicate of `filter_jobs_for_recipient`:
`j.get('llm_evaluation', \x7b\x7d).get('visa_sponsorship', False)` — a job
without an attached verdict counts as not sponsoring. -/
def visa_of_job (j : Job) : Bool :=
  match j.llm_evaluation with
  | some ev => ev.visa_sponsorship
  | none => false

/-- `EmailSender.filter_jobs_for_recipient` (email_sender.py): collect the
jobs of every term the recipient subscribes to (case-insensitive, trimmed),
deduplicate by `job_url` first-occurrence-wins, then, when the recipient
needs sponsorship, keep only jobs whose attached verdict has
`visa_sponsorship` true. -/
def filter_jobs_for_recipient (jobs_by_term : List (String × List Job))
    (recipient : Recipient) : List Job :=
  let recipient_jobs := router_union jobs_by_term recipient
  let unique_jobs := dedup_by_url [] recipient_jobs
  if recipient.needs_sponsorship then
    unique_jobs.filter visa_of_job
  else unique_jobs

/-- `EmailSender.send_daily_digest` (email_sender.py), jobs-by-term format:
per recipient, filter the jobs; an empty filtered list records success
without sending; otherwise the transport result (exceptions caught as
failure) is recorded per recipient.  `transport` models the external Resend
call. -/
def send_daily_digest (recipients : List Recipient)
    (jobs_by_term : List (String × List Job))
    (transport : Recipient → List Job → Bool) : List (String × Bool) :=
  recipients.map (fun recipient =>
    let filtered_jobs := filter_jobs_for_recipient jobs_by_term recipient
    if filtered_jobs.isEmpty then (recipient.email, true)
    else (recipient.email, transport recipient filtered_jobs))

/-- `EmailSender.send_empty_notification` (email_sender.py): attempt one
notification per recipient, recording the per-recipient transport result. -/
def send_empty_notification (recipients : List Recipient)
    (transport_empty : Recipient → Bool) : List (String × Bool) :=
  recipients.map (fun r => (r.email, transport_empty r))

/-- `ENTRY_LEVEL_KEYWORDS` (main.py). -/
def ENTRY_LEVEL_KEYWORDS : List String :=
  ["entry level", "entry-level", "junior", "associate", "new grad",
   "new graduate", "early career", "graduate", "i ", " i,", " 1 ", " 1,",
   "level 1", "level i", "trainee", "intern"]

/-- `SENIOR_KEYWORDS` (main.py). -/
def SENIOR_KEYWORDS : List String :=
  ["senior", "sr.", "sr ", "lead", "principal", "staff", "manager",
   "director", "vp", "vice president", "head of", "chief", "architect",
   "ii", "iii", "iv", " 2 ", " 3 ", " 4 ", "level 2", "level 3"]

/-- `PHD_KEYWORDS` (main.py). -/
def PHD_KEYWORDS : List String :=
  ["phd", "ph.d", "doctorate", "doctoral", "postdoc", "post-doc",
   "research scientist", "research engineer"]

/-- `VISA_KEYWORDS` (main.py). -/
def VISA_KEYWORDS : List String :=
  ["h1b", "h-1b", "visa sponsor", "sponsorship", "work authorization",
   "immigration", "sponsor", "employment authorization"]

/-- The `negative_patterns` local of `_has_visa_sponsorship` (main.py). -/
def NEGATIVE_VISA_PATTERNS : List String :=
  ["no sponsor", "not sponsor", "cannot sponsor", "will not sponsor",
   "unable to sponsor", "without sponsor", "no visa", "not able to sponsor"]

/-- The `phd_required_patterns` local of `_requires_phd` (main.py). -/
def PHD_REQUIRED_PATTERNS : List String :=
  ["phd required", "ph.d required", "ph.d. required",
   "doctorate required", "doctoral degree required",
   "must have phd", "must have ph.d", "requires phd", "requires ph.d",
   "phd in", "ph.d in", "ph.d. in"]

/-- `JobHunterSentinel._is_entry_level` (main.py), on the title string the
caller extracted with `job.get('title', '')`. -/
def is_entry_level (title : String) : Bool :=
  if title = "" then false
  else
    let title_lower := py_lower title
    if SENIOR_KEYWORDS.any (fun k => str_contains title_lower k) then false
    else if ENTRY_LEVEL_KEYWORDS.any (fun k => str_contains title_lower k) then true
    else true

/-- `JobHunterSentinel._has_visa_sponsorship` (main.py); the `None`/NaN case
is absorbed into the empty string by the caller's `job.get('description',
'')` plus `_safe_str`-style handling. -/
def has_visa_sponsorship (description : String) : Bool :=
  if description = "" then true
  else
    let desc_lower := py_lower description
    if VISA_KEYWORDS.any (fun k => str_contains desc_lower k) then true
    else if NEGATIVE_VISA_PATTERNS.any (fun k => str_contains desc_lower k) then false
    else true

/-- `JobHunterSentinel._requires_phd` (main.py). -/
def requires_phd (title description : String) : Bool :=
  let title_lower := py_lower title
  let desc_lower := py_lower description
  PHD_KEYWORDS.any (fun k => str_contains title_lower k) ||
    PHD_REQUIRED_PATTERNS.any (fun k => str_contains desc_lower k)

/-- `JobHunterSentinel.filter_jobs` (main.py): the rule-based fallback used
when the LLM filter is disabled.  It selects jobs unchanged and never
attaches an `llm_evaluation`. -/
def sentinel_filter_jobs (jobs_list : List Job) : List Job :=
  jobs_list.filter (fun job =>
    let title := job.title.getD ""
    let description := job.description.getD ""
    is_entry_level title && !(requires_phd title description) &&
      has_visa_sponsorship description)

/-- `DataManager.save_jobs` call of Steps 2.5 and 3 of
`JobHunterSentinel.run` (main.py): `self.data_manager.save_jobs(jobs,
timestamp=start_time, prefix=...)`.  The staged `DataManager.save_jobs`
(data_manager.py) has the signature `save_jobs(self, jobs_data,
timestamp=None)` — it accepts no `prefix` keyword and no keyword catch-all
— so every reached call raises `TypeError`, which the orchestrator's outer
`except Exception` turns into `sys.exit(1)`.  The file write itself is
external storage, so the model keeps only the raise. -/
def save_jobs_step (jobs : List Job) : Except Unit Unit :=
  Except.error ()

/-- The per-term loop of `JobHunterSentinel.run` (Steps 1-3): scrape the
term, drop already-sent jobs via the dedup store (`filter_new` models
`JobDatabase.filter_new_jobs`, external to these sources), save the new
jobs (Step 2.5 — which raises, see `save_jobs_step`), then apply the LLM
filter (via `filter_jobs_parallel`, a wrapper of `filter_jobs_async`) or
the rule-based fallback and save the filtered jobs.  Empty scrape or empty
dedup result files an empty list for the term and continues; a raise
aborts the whole loop (the `try` wraps all terms). -/
def process_terms (scrape : String → List Job)
    (filter_new : List Job → List Job) (use_llm : Bool)
    (jsonDecode : String → Option ParsedJson)
    (callJudge : Job → List String → JudgeOutcome) (concurrency : Int) :
    List String → Except Unit (List (String × List Job))
  | [] => Except.ok []
  | search_term :: rest =>
    let jobs_df := scrape search_term
    if jobs_df.isEmpty then
      (process_terms scrape filter_new use_llm jsonDecode callJudge concurrency rest).map
        (fun tail => (search_term, ([] : List Job)) :: tail)
    else
      let new_jobs := filter_new jobs_df
      if new_jobs.isEmpty then
        (process_terms scrape filter_new use_llm jsonDecode callJudge concurrency rest).map
          (fun tail => (search_term, ([] : List Job)) :: tail)
      else
        match save_jobs_step new_jobs with
        | Except.error e => Except.error e
        | Except.ok _ =>
          let filtered_jobs :=
            if use_llm then
              filter_jobs_async jsonDecode callJudge concurrency new_jobs [search_term]
            else sentinel_filter_jobs new_jobs
          let save_filtered : Except Unit Unit :=
            if filtered_jobs.isEmpty then Except.ok () else save_jobs_step filtered_jobs
          match save_filtered with
          | Except.error e => Except.error e
          | Except.ok _ =>
            (process_terms scrape filter_new use_llm jsonDecode callJudge concurrency rest).map
              (fun tail => (search_term, filtered_jobs) :: tail)

/-- Step 5 of `JobHunterSentinel.run`: the urls the orchestrator passes to
`JobDatabase.mark_as_sent` — every unique job across all terms, regardless
of the per-recipient email results. -/
def commit_urls (jobs_by_term : List (String × List Job)) : List String :=
  (dedup_by_url [] ((jobs_by_term.map (fun p => p.2)).flatten)).map
    (fun job => job.job_url.getD "")

/-- The observable effects of one completed `JobHunterSentinel.run`:
per-recipient digest results, per-recipient empty-notification results,
and the posting ids committed to the dedup store. -/
structure RunTrace where
  email_results : List (String × Bool)
  empty_notice_results : List (String × Bool)
  commits : List String
deriving DecidableEq, Repr

/-- Outcome of one `JobHunterSentinel.run`: a completed run's effects, or
the abort path (`except Exception` → `sys.exit(1)`), in which no email was
sent and nothing was committed. -/
inductive RunResult where
  | done (trace : RunTrace)
  | aborted
deriving DecidableEq, Repr

/-- `JobHunterSentinel.run` (main.py): process the terms; a raise inside
the loop aborts the run with exit code 1.  Otherwise either send the empty
notification to every recipient (when nothing survived anywhere) or send
the digests and mark every unique surviving job as sent. -/
def run_sentinel (recipients : List Recipient) (all_search_terms : List String)
    (scrape : String → List Job) (filter_new : List Job → List Job)
    (use_llm : Bool) (jsonDecode : String → Option ParsedJson)
    (callJudge : Job → List String → JudgeOutcome) (concurrency : Int)
    (transport : Recipient → List Job → Bool)
    (transport_empty : Recipient → Bool) : RunResult :=
  match process_terms scrape filter_new use_llm jsonDecode callJudge concurrency
      all_search_terms with
  | Except.error _ => RunResult.aborted
  | Except.ok jobs_by_term =>
    let all_jobs_count : Nat := (jobs_by_term.map (fun p => p.2.length)).foldl (fun a b => a + b) 0
    if all_jobs_count = 0 then
      RunResult.done
        { email_results := []
          empty_notice_results := send_empty_notification recipients transport_empty
          commits := [] }
    else
      RunResult.done
        { email_results := send_daily_digest recipients jobs_by_term transport
          empty_notice_results := []
          commits := commit_urls jobs_by_term }

/-! ### Helper lemmas -/

/-- Number of occurrences of jobs carrying the url `u` in a list. -/
def url_count (u : String) (l : List Job) : Nat :=
  (l.filter (fun j => decide (j.job_url = some u))).length

theorem dedup_by_url_subset :
    ∀ (l : List Job) (seen : List String) (j : Job),
      j ∈ dedup_by_url seen l → j ∈ l := by
  intro l
  induction l with
  | nil => intro seen j h; simp [dedup_by_url] at h
  | cons a rest ih =>
    intro seen j h
    rw [dedup_by_url] at h
    rcases ha : a.job_url with _ | url <;> simp only [ha] at h
    · exact List.mem_cons_of_mem _ (ih seen j h)
    · by_cases hc : url ≠ "" ∧ url ∉ seen
      · rw [if_pos hc] at h
        rcases List.mem_cons.mp h with h1 | h2
        · exact h1 ▸ List.mem_cons_self a rest
        · exact List.mem_cons_of_mem _ (ih _ j h2)
      · rw [if_neg hc] at h
        exact List.mem_cons_of_mem _ (ih seen j h)

theorem dedup_by_url_filter_of_mem (u : String) :
    ∀ (l : List Job) (seen : List String), u ∈ seen →
      (dedup_by_url seen l).filter (fun j => decide (j.job_url = some u)) = [] := by
  intro l
  induction l with
  | nil => intro seen _; simp [dedup_by_url]
  | cons a rest ih =>
    intro seen hu
    rw [dedup_by_url]
    rcases ha : a.job_url with _ | url <;> simp only [ha]
    · exact ih seen hu
    · by_cases hc : url ≠ "" ∧ url ∉ seen
      · rw [if_pos hc]
        have hne : url ≠ u := fun h => hc.2 (h ▸ hu)
        have hd : decide (a.job_url = some u) = false := by
          simp [ha, hne]
        simp only [List.filter_cons, hd, Bool.false_eq_true, if_false]
        exact ih (url :: seen) (List.mem_cons_of_mem _ hu)
      · rw [if_neg hc]
        exact ih seen hu

theorem dedup_by_url_filter_of_not_mem (u : String) (hu : u ≠ "") :
    ∀ (l : List Job) (seen : List String), u ∉ seen →
      (dedup_by_url seen l).filter (fun j => decide (j.job_url = some u)) =
        (l.filter (fun j => decide (j.job_url = some u))).take 1 := by
  intro l
  induction l with
  | nil => intro seen _; simp [dedup_by_url]
  | cons a rest ih =>
    intro seen hu'
    rw [dedup_by_url]
    rcases ha : a.job_url with _ | url <;> simp only [ha]
    · have hd : decide (a.job_url = some u) = false := by simp [ha]
      simp only [List.filter_cons, hd, Bool.false_eq_true, if_false]
      exact ih seen hu'
    · by_cases heq : url = u
      · subst heq
        have hc : url ≠ "" ∧ url ∉ seen := ⟨hu, hu'⟩
        rw [if_pos hc]
        have hd : decide (a.job_url = some url) = true := by simp [ha]
        simp only [List.filter_cons, hd, if_true]
        rw [dedup_by_url_filter_of_mem url rest (url :: seen) (List.mem_cons_self _ _)]
        simp
      · have hd : decide (a.job_url = some u) = false := by simp [ha, heq]
        by_cases hc : url ≠ "" ∧ url ∉ seen
        · rw [if_pos hc]
          simp only [List.filter_cons, hd, Bool.false_eq_true, if_false]
          exact ih (url :: seen) (by
            intro hmem
            rcases List.mem_cons.mp hmem with h1 | h2
            · exact heq h1.symm
            · exact hu' h2)
        · rw [if_neg hc]
          simp only [List.filter_cons, hd, Bool.false_eq_true, if_false]
          exact ih seen hu'

theorem length_filter_filter_le (p q : Job → Bool) :
    ∀ l : List Job, ((l.filter p).filter q).length ≤ (l.filter q).length := by
  intro l
  induction l with
  | nil => simp
  | cons a rest ih =>
    by_cases hp : p a = true <;> by_cases hq : q a = true <;>
      simp only [List.filter_cons, hp, hq, Bool.false_eq_true, if_true, if_false,
        List.length_cons] <;> omega

theorem process_results_cons (j : Job) (ev : Evaluation) (rest : List (Job × Evaluation)) :
    process_results ((j, ev) :: rest) =
      if ev.skipped = false ∧ should_include_job ev = true
      then { j with llm_evaluation := some ev } :: process_results rest
      else process_results rest := by
  rcases ev with ⟨km, vs, el, rp, ii, rsn, sk, er⟩
  cases sk <;> cases km <;> cases vs <;> cases el <;> cases rp <;> cases ii <;>
    simp [process_results, should_include_job]

theorem parse_response_not_skipped (jsonDecode : String → Option ParsedJson)
    (response_text : String) :
    (parse_response jsonDecode response_text).skipped = false := by
  simp only [parse_response]
  split
  · split <;> rfl
  · rfl

theorem evaluate_job_skipped_no_keyword (jsonDecode : String → Option ParsedJson)
    (callJudge : Job → List String → JudgeOutcome) (job : Job)
    (search_terms : List String) :
    (evaluate_job jsonDecode callJudge job search_terms).skipped = true →
    (evaluate_job jsonDecode callJudge job search_terms).keyword_match = false := by
  simp only [evaluate_job]
  split
  · intro _; rfl
  · split
    · intro h
      rw [parse_response_not_skipped] at h
      exact absurd h (by simp)
    · intro h
      exact absurd h (by simp [api_error_evaluation])

theorem process_results_map (E : Job → Evaluation)
    (hE : ∀ j, (E j).skipped = true → (E j).keyword_match = false) :
    ∀ jobs : List Job,
      process_results (jobs.map (fun j => (j, E j))) =
        (jobs.filter (fun j => should_include_job (E j))).map
          (fun j => { j with llm_evaluation := some (E j) }) := by
  intro jobs
  induction jobs with
  | nil => rfl
  | cons j rest ih =>
    simp only [List.map_cons, List.filter_cons, process_results_cons]
    by_cases hsi : should_include_job (E j) = true
    · have hsk : (E j).skipped = false := by
        cases h : (E j).skipped
        · rfl
        · have := hE j h
          rw [should_include_job, this] at hsi
          simp at hsi
      rw [if_pos ⟨hsk, hsi⟩, hsi]
      simp [ih]
    · rw [if_neg (fun hand => hsi hand.2)]
      have : should_include_job (E j) = false := by
        cases h : should_include_job (E j)
        · rfl
        · exact absurd h hsi
      rw [this]
      simp [ih]

theorem foldl_add_all_zero :
    ∀ (l : List Nat) (a : Nat), (∀ x ∈ l, x = 0) →
      l.foldl (fun a b => a + b) a = a := by
  intro l
  induction l with
  | nil => intro a _; rfl
  | cons x rest ih =>
    intro a h
    have hx : x = 0 := h x (List.mem_cons_self _ _)
    simp only [List.foldl_cons, hx, Nat.add_zero]
    exact ih a (fun y hy => h y (List.mem_cons_of_mem _ hy))

/-! ### Claim theorems -/

/-- C2 (code evidence): `filter_jobs_async` slices `jobs_list[0 : concurrency]`
once and never loops, so for an input of K = 2 postings and concurrency
limit C = 1 the evaluated result set holds exactly 1 entry, not K = 2.  The
surrounding code (the `completed`/`idx` counters, the inter-batch sleep
guard `if idx < len(jobs)`, and the claim of processing all `total` jobs)
shows a batching loop was intended. -/
theorem evaluated_results_first_batch_only :
    (evaluated_results (fun _ => none) (fun _ _ => JudgeOutcome.err "timeout") 1
      [{ job_url := some "u1" }, { job_url := some "u2" }] ["data analyst"]).length = 1 := by
  decide

/-- C3 (counterexample): a response string with no brace pair does not get
the permissive default verdict — the text-scan fallback leaves
`keyword_match` and `entry_level` false, and `should_include_job` rejects
the resulting verdict, so Accept is forced false by the parsing failure. -/
theorem parse_response_braceless_not_permissive :
    (parse_response (fun _ => none) "The posting matches all criteria.").keyword_match = false ∧
    (parse_response (fun _ => none) "The posting matches all criteria.").entry_level = false ∧
    should_include_job (parse_response (fun _ => none) "The posting matches all criteria.") = false := by
  decide

/-- C3 (amended): for every response string that does contain a brace pair
but whose extracted substring fails JSON decoding, `_parse_response` returns
the permissive default verdict (keyword_match, visa_sponsorship,
entry_level true; requires_phd, is_internship false) and Accept holds. -/
theorem parse_response_decode_failure_permissive :
    ∀ (jsonDecode : String → Option ParsedJson) (response_text : String),
      0 ≤ py_find response_text '{' →
      py_find response_text '{' < py_rfind response_text '}' + 1 →
      jsonDecode (extract_json response_text) = none →
      parse_response jsonDecode response_text = json_error_evaluation ∧
        should_include_job (parse_response jsonDecode response_text) = true := by
  intro jd t h1 h2 h3
  have hmain : parse_response jd t = json_error_evaluation := by
    simp only [parse_response]
    rw [if_pos ⟨h1, h2⟩, h3]
  exact ⟨hmain, by rw [hmain]; rfl⟩

/-- Witness for `parse_response_decode_failure_permissive` at the response
string between braces that is not valid JSON, with a decoder rejecting it. -/
theorem parse_response_decode_failure_permissive_witness :
    (0 ≤ py_find "{not valid json}" '{' ∧
      py_find "{not valid json}" '{' < py_rfind "{not valid json}" '}' + 1) ∧
    parse_response (fun _ => none) "{not valid json}" = json_error_evaluation ∧
      should_include_job (parse_response (fun _ => none) "{not valid json}") = true :=
  ⟨⟨by decide, by decide⟩,
    parse_response_decode_failure_permissive (fun _ => none) "{not valid json}"
      (by decide) (by decide) rfl⟩

/-- C4 (counterexample): with concurrency limit 0 the engine returns the
empty list on a one-posting input on which limit 1 returns that posting, so
a limit of 0 is not treated as 1. -/
theorem filter_jobs_async_zero_concurrency_differs :
    filter_jobs_async (fun _ => none) (fun _ _ => JudgeOutcome.err "timeout") 0
      [{ description := some "A long enough description of an entry level data analyst role." }]
      ["data analyst"] = [] ∧
    filter_jobs_async (fun _ => none) (fun _ _ => JudgeOutcome.err "timeout") 1
      [{ description := some "A long enough description of an entry level data analyst role." }]
      ["data analyst"] ≠ [] := by
  decide

/-- C4 (amended): `__init__` stores the concurrency limit unchanged and
`filter_jobs_async` slices with it, so a limit of 0 slices an empty batch:
for every input the engine evaluates nothing and returns the empty list
(instead of behaving as if the limit were 1). -/
theorem filter_jobs_async_zero_concurrency_empty :
    ∀ (jsonDecode : String → Option ParsedJson)
      (callJudge : Job → List String → JudgeOutcome)
      (jobs_list : List Job) (search_terms : List String),
      filter_jobs_async jsonDecode callJudge 0 jobs_list search_terms = [] := by
  intro jd cj jobs terms
  unfold filter_jobs_async evaluated_results
  by_cases h0 : jobs.length = 0
  · rw [if_pos h0]; rfl
  · rw [if_neg h0]
    have hslice : py_slice_to jobs (0 : Int) = [] := by
      simp only [py_slice_to]
      have : (min (0 : Int) (jobs.length : Int)).toNat = 0 := by omega
      simp [this]
    rw [hslice]
    rfl

/-- C5: `should_include_job` holds exactly when the three positive fields
are true and the two exclusionary fields are false, and the engine returns
exactly those postings of the evaluated batch whose verdict satisfies that
conjunction, each with its own verdict attached.  (The evaluated batch is
the `jobs_list[0 : concurrency]` slice the engine actually processes; see
`evaluated_results_first_batch_only` for the missing-loop defect.) -/
theorem accept_policy_conjunction :
    (∀ ev : Evaluation, should_include_job ev = true ↔
      (ev.keyword_match = true ∧ ev.visa_sponsorship = true ∧ ev.entry_level = true ∧
        ev.requires_phd = false ∧ ev.is_internship = false)) ∧
    (∀ (jsonDecode : String → Option ParsedJson)
        (callJudge : Job → List String → JudgeOutcome) (concurrency : Int)
        (jobs_list : List Job) (search_terms : List String),
      filter_jobs_async jsonDecode callJudge concurrency jobs_list search_terms =
        ((py_slice_to jobs_list concurrency).filter
            (fun job => should_include_job (evaluate_job jsonDecode callJudge job search_terms))).map
          (fun job =>
            { job with
              llm_evaluation := some (evaluate_job jsonDecode callJudge job search_terms) })) := by
  constructor
  · intro ev
    rcases ev with ⟨km, vs, el, rp, ii, rsn, sk, er⟩
    cases km <;> cases vs <;> cases el <;> cases rp <;> cases ii <;>
      simp [should_include_job]
  · intro jd cj c jobs terms
    unfold filter_jobs_async evaluated_results
    by_cases h0 : jobs.length = 0
    · have hnil : jobs = [] := List.length_eq_zero.mp h0
      subst hnil
      simp [py_slice_to, process_results]
    · rw [if_neg h0]
      exact process_results_map _ (fun j => evaluate_job_skipped_no_keyword jd cj j terms) _

/-- C6: a posting whose description is absent or under 50 characters is
short-circuited to the skip verdict with all five boolean fields false; the
result is the same for every judge `callJudge`, i.e. no call to the
external judge influences it. -/
theorem short_description_skips_judge :
    ∀ (jsonDecode : String → Option ParsedJson)
      (callJudge : Job → List String → JudgeOutcome)
      (job : Job) (search_terms : List String),
      (safe_str job.description "").length < 50 →
      evaluate_job jsonDecode callJudge job search_terms = skip_evaluation ∧
      skip_evaluation.keyword_match = false ∧
      skip_evaluation.visa_sponsorship = false ∧
      skip_evaluation.entry_level = false ∧
      skip_evaluation.requires_phd = false ∧
      skip_evaluation.is_internship = false := by
  intro jd cj job terms h
  refine ⟨?_, rfl, rfl, rfl, rfl, rfl⟩
  simp only [evaluate_job]
  rw [if_pos (Or.inr h)]

/-- Witness for `short_description_skips_judge` on a posting with a
nine-character description. -/
theorem short_description_skips_judge_witness :
    ((safe_str ({ description := some "Too short" } : Job).description "").length < 50) ∧
    evaluate_job (fun _ => none) (fun _ _ => JudgeOutcome.ok "ignored")
      { description := some "Too short" } ["data analyst"] = skip_evaluation :=
  ⟨by decide,
    (short_description_skips_judge (fun _ => none) (fun _ _ => JudgeOutcome.ok "ignored")
      { description := some "Too short" } ["data analyst"] (by decide)).1⟩

theorem filter_false_of_all (p : Job → Bool) :
    ∀ l : List Job, (∀ x ∈ l, p x = false) → l.filter p = [] := by
  intro l
  induction l with
  | nil => intro _; rfl
  | cons a rest ih =>
    intro h
    have ha : p a = false := h a (List.mem_cons_self _ _)
    simp only [List.filter_cons, ha, Bool.false_eq_true, if_false]
    exact ih (fun x hx => h x (List.mem_cons_of_mem _ hx))

/-- C7: a recipient with `needs_sponsorship` true never receives a posting
whose attached verdict has `visa_sponsorship` false — every job surviving
`filter_jobs_for_recipient` fails to exhibit such a verdict. -/
theorem sponsorship_gate :
    ∀ (jobs_by_term : List (String × List Job)) (recipient : Recipient),
      recipient.needs_sponsorship = true →
      ∀ job ∈ filter_jobs_for_recipient jobs_by_term recipient,
        ¬ ∃ ev : Evaluation, job.llm_evaluation = some ev ∧ ev.visa_sponsorship = false := by
  intro jbt r hr job hmem hex
  obtain ⟨ev, hev, hv⟩ := hex
  simp only [filter_jobs_for_recipient, hr, if_true] at hmem
  have hvisa := (List.mem_filter.mp hmem).2
  simp only [visa_of_job, hev] at hvisa
  rw [hv] at hvisa
  exact absurd hvisa (by simp)

/-- Witness for `sponsorship_gate`: a sponsorship-needing recipient, a map
filing one visa-true posting under the subscribed term, and that posting in
the routed result. -/
theorem sponsorship_gate_witness :
    (⟨"r@example.com", true, ["data analyst"]⟩ : Recipient).needs_sponsorship = true ∧
    ({ job_url := some "u1"
       llm_evaluation := some
         { keyword_match := true, visa_sponsorship := true, entry_level := true,
           requires_phd := false, is_internship := false, reason := "", skipped := false,
           error := false } } : Job) ∈
      filter_jobs_for_recipient
        [("data analyst",
          [{ job_url := some "u1"
             llm_evaluation := some
               { keyword_match := true, visa_sponsorship := true, entry_level := true,
                 requires_phd := false, is_internship := false, reason := "", skipped := false,
                 error := false } }])]
        ⟨"r@example.com", true, ["data analyst"]⟩ ∧
    ¬ ∃ ev : Evaluation,
        ({ job_url := some "u1"
           llm_evaluation := some
             { keyword_match := true, visa_sponsorship := true, entry_level := true,
               requires_phd := false, is_internship := false, reason := "", skipped := false,
               error := false } } : Job).llm_evaluation = some ev ∧
          ev.visa_sponsorship = false :=
  ⟨rfl, by decide,
    sponsorship_gate
      [("data analyst",
        [{ job_url := some "u1"
           llm_evaluation := some
             { keyword_match := true, visa_sponsorship := true, entry_level := true,
               requires_phd := false, is_internship := false, reason := "", skipped := false,
               error := false } }])]
      ⟨"r@example.com", true, ["data analyst"]⟩ rfl _ (by decide)⟩

/-- C8: the router deduplicates its term-matched union by posting url with
the first occurrence winning.  For every recipient a url occurs at most
once in the routed result; when the recipient does not trigger the
sponsorship filter the routed jobs carrying url `u` are exactly the first
job of the union carrying `u`, and a url filed under at least one
subscribed term occurs exactly once. -/
theorem router_union_dedup :
    ∀ (jobs_by_term : List (String × List Job)) (recipient : Recipient) (u : String),
      u ≠ "" →
      url_count u (filter_jobs_for_recipient jobs_by_term recipient) ≤ 1 ∧
      (recipient.needs_sponsorship = false →
        (filter_jobs_for_recipient jobs_by_term recipient).filter
            (fun j => decide (j.job_url = some u)) =
          ((router_union jobs_by_term recipient).filter
            (fun j => decide (j.job_url = some u))).take 1) ∧
      (recipient.needs_sponsorship = false →
        (∃ p ∈ jobs_by_term, norm_term p.1 ∈ recipient.search_terms.map norm_term ∧
          ∃ j ∈ p.2, j.job_url = some u) →
        url_count u (filter_jobs_for_recipient jobs_by_term recipient) = 1) := by
  intro jbt r u hu
  have hkey := dedup_by_url_filter_of_not_mem u hu (router_union jbt r) []
    (List.not_mem_nil u)
  refine ⟨?_, ?_, ?_⟩
  · cases hns : r.needs_sponsorship
    · simp only [filter_jobs_for_recipient, hns, if_false, url_count, Bool.false_eq_true]
      rw [hkey]
      exact le_trans (List.length_take_le 1 _) (le_refl 1)
    · simp only [filter_jobs_for_recipient, hns, if_true, url_count]
      calc ((( dedup_by_url [] (router_union jbt r)).filter visa_of_job).filter
              (fun j => decide (j.job_url = some u))).length
          ≤ ((dedup_by_url [] (router_union jbt r)).filter
              (fun j => decide (j.job_url = some u))).length :=
            length_filter_filter_le _ _ _
        _ ≤ 1 := by rw [hkey]; exact List.length_take_le 1 _
  · intro hns
    simp only [filter_jobs_for_recipient, hns, if_false, Bool.false_eq_true]
    exact hkey
  · intro hns hex
    obtain ⟨p, hp, hterm, j, hj, hurl⟩ := hex
    simp only [filter_jobs_for_recipient, hns, if_false, url_count, Bool.false_eq_true]
    rw [hkey]
    have hjU : j ∈ router_union jbt r := by
      simp only [router_union, List.mem_flatten, List.mem_map]
      refine ⟨p.2, ⟨p, List.mem_filter.mpr ⟨hp, by simpa using hterm⟩, rfl⟩, hj⟩
    have hjF : j ∈ (router_union jbt r).filter (fun j => decide (j.job_url = some u)) :=
      List.mem_filter.mpr ⟨hjU, by simp [hurl]⟩
    have hlen : 1 ≤ ((router_union jbt r).filter
        (fun j => decide (j.job_url = some u))).length :=
      List.length_pos.mpr (List.ne_nil_of_mem hjF)
    rw [List.length_take]
    omega

/-- Witness for `router_union_dedup`: two subscribed terms (matched up to
case and trailing blank) file overlapping lists sharing the url `shared`;
the routed result carries that url exactly once. -/
theorem router_union_dedup_witness :
    ("shared" ≠ "") ∧
    (⟨"r8@example.com", false, ["T1", "T2"]⟩ : Recipient).needs_sponsorship = false ∧
    (∃ p ∈ [("t1", [({ job_url := some "a1" } : Job), { job_url := some "shared" }]),
            ("T2 ", [({ job_url := some "shared" } : Job), { job_url := some "c1" }])],
      norm_term p.1 ∈ (⟨"r8@example.com", false, ["T1", "T2"]⟩ : Recipient).search_terms.map norm_term ∧
      ∃ j ∈ p.2, j.job_url = some "shared") ∧
    url_count "shared"
      (filter_jobs_for_recipient
        [("t1", [({ job_url := some "a1" } : Job), { job_url := some "shared" }]),
         ("T2 ", [({ job_url := some "shared" } : Job), { job_url := some "c1" }])]
        ⟨"r8@example.com", false, ["T1", "T2"]⟩) = 1 :=
  ⟨by decide, rfl, by decide,
    (router_union_dedup
      [("t1", [({ job_url := some "a1" } : Job), { job_url := some "shared" }]),
       ("T2 ", [({ job_url := some "shared" } : Job), { job_url := some "c1" }])]
      ⟨"r8@example.com", false, ["T1", "T2"]⟩ "shared" (by decide)).2.2 rfl (by decide)⟩

/-- C10: the rule-based fallback `JobHunterSentinel.filter_jobs` passes jobs
through unchanged and never attaches a verdict, and the router's
sponsorship predicate treats a missing verdict as `visa_sponsorship` false;
hence a recipient with `needs_sponsorship` true receives no postings at all
when every term's list went through the fallback on verdict-free jobs. -/
theorem missing_verdict_dropped_for_sponsorship_recipient :
    ∀ (term_jobs : List (String × List Job)) (recipient : Recipient),
      recipient.needs_sponsorship = true →
      (∀ p ∈ term_jobs, ∀ j ∈ p.2, j.llm_evaluation = none) →
      filter_jobs_for_recipient
        (term_jobs.map (fun p => (p.1, sentinel_filter_jobs p.2))) recipient = [] := by
  intro tj r hr hnone
  simp only [filter_jobs_for_recipient, hr, if_true]
  apply filter_false_of_all
  intro job hjob
  have hju := dedup_by_url_subset _ _ _ hjob
  simp only [router_union, List.mem_flatten, List.mem_map, List.mem_filter] at hju
  obtain ⟨l, ⟨p, ⟨hpmem, -⟩, rfl⟩, hjl⟩ := hju
  obtain ⟨q, hq, hqp⟩ := hpmem
  subst hqp
  simp only [sentinel_filter_jobs] at hjl
  have hjq : job ∈ q.2 := (List.mem_filter.mp hjl).1
  have := hnone q hq job hjq
  simp [visa_of_job, this]

/-- Witness for `missing_verdict_dropped_for_sponsorship_recipient`: one
verdict-free posting that does pass the rule-based fallback, filed under a
term the sponsorship-needing recipient subscribes to; the routed result is
empty. -/
theorem missing_verdict_dropped_witness :
    (⟨"r10@example.com", true, ["data analyst"]⟩ : Recipient).needs_sponsorship = true ∧
    (∀ p ∈ [("data analyst",
        [({ title := some "junior data analyst", job_url := some "u1" } : Job)])],
      ∀ j ∈ p.2, j.llm_evaluation = none) ∧
    filter_jobs_for_recipient
      ([("data analyst",
          [({ title := some "junior data analyst", job_url := some "u1" } : Job)])].map
        (fun p => (p.1, sentinel_filter_jobs p.2)))
      ⟨"r10@example.com", true, ["data analyst"]⟩ = [] :=
  ⟨rfl, by decide,
    missing_verdict_dropped_for_sponsorship_recipient
      [("data analyst",
        [({ title := some "junior data analyst", job_url := some "u1" } : Job)])]
      ⟨"r10@example.com", true, ["data analyst"]⟩ rfl (by decide)⟩

/-- C1 (code evidence): on a run with one scraped new posting — the very
inputs the claim is about — the orchestrator aborts (`sys.exit(1)`) at the
Step 2.5 `save_jobs` `TypeError` before any dispatch is attempted or any
commit is written, for every transport behaviour; dispatch can never fail
(or succeed) because it is never reached, and no posting id is ever
committed. -/
theorem run_aborts_before_dispatch_or_commit :
    ∀ (transport : Recipient → List Job → Bool) (transport_empty : Recipient → Bool),
      run_sentinel [⟨"a@example.com", false, ["data analyst"]⟩] ["data analyst"]
        (fun _ => [{ title := some "junior data analyst", job_url := some "u1" }])
        (fun l => l) false (fun _ => none) (fun _ _ => JudgeOutcome.err "e") 20
        transport transport_empty = RunResult.aborted := by
  intro transport transport_empty
  rfl

/-- C9 (counterexample): a run whose only scraped posting would be dropped
by evaluation (the rule-based filter rejects the senior title, so zero
postings survive across all terms) does not send the empty notification
and does not complete normally — it aborts at the Step 2.5 `save_jobs`
`TypeError` before any notice. -/
theorem empty_survivors_run_aborts :
    sentinel_filter_jobs
      [{ title := some "senior data analyst", job_url := some "u1" }] = [] ∧
    run_sentinel [⟨"a@example.com", false, ["data analyst"]⟩] ["data analyst"]
      (fun _ => [{ title := some "senior data analyst", job_url := some "u1" }])
      (fun l => l) false (fun _ => none) (fun _ _ => JudgeOutcome.err "e") 20
      (fun _ _ => false) (fun _ => true) = RunResult.aborted := by
  decide

theorem process_terms_all_no_new (scrape : String → List Job)
    (filter_new : List Job → List Job) (use_llm : Bool)
    (jsonDecode : String → Option ParsedJson)
    (callJudge : Job → List String → JudgeOutcome) (concurrency : Int) :
    ∀ terms : List String,
      (∀ t ∈ terms, scrape t = [] ∨ filter_new (scrape t) = []) →
      process_terms scrape filter_new use_llm jsonDecode callJudge concurrency terms =
        Except.ok (terms.map (fun t => (t, ([] : List Job)))) := by
  intro terms
  induction terms with
  | nil => intro _; rfl
  | cons t rest ih =>
    intro h
    have hrest := ih (fun x hx => h x (List.mem_cons_of_mem _ hx))
    rw [process_terms]
    rcases h t (List.mem_cons_self _ _) with hdf | hnew
    · rw [hdf]
      simp only [List.isEmpty_nil, if_true, hrest, Except.map, List.map_cons]
    · by_cases hdf : (scrape t).isEmpty = true
      · simp only [hdf, if_true, hrest, Except.map, List.map_cons]
      · simp only [hdf, Bool.false_eq_true, if_false, hnew, List.isEmpty_nil, if_true,
          hrest, Except.map, List.map_cons]

/-- C9 (amended): only runs in which no search term yields any new posting
(each term's scrape is empty, or the dedup store filters everything out)
reach the notification step; such a run sends the empty notification to
every recipient, completes normally, and skips dispatch and commit.  (A
run where any term has new postings aborts before any notice; see
`empty_survivors_run_aborts`.) -/
theorem no_new_postings_run_sends_empty_notice :
    ∀ (recipients : List Recipient) (all_search_terms : List String)
      (scrape : String → List Job) (filter_new : List Job → List Job)
      (use_llm : Bool) (jsonDecode : String → Option ParsedJson)
      (callJudge : Job → List String → JudgeOutcome) (concurrency : Int)
      (transport : Recipient → List Job → Bool) (transport_empty : Recipient → Bool),
      (∀ t ∈ all_search_terms, scrape t = [] ∨ filter_new (scrape t) = []) →
      run_sentinel recipients all_search_terms scrape filter_new use_llm jsonDecode callJudge
          concurrency transport transport_empty =
        RunResult.done
          { email_results := []
            empty_notice_results := recipients.map (fun r => (r.email, transport_empty r))
            commits := [] } := by
  intro recipients terms scrape fnew ul jd cj c t te hall
  simp only [run_sentinel]
  rw [process_terms_all_no_new scrape fnew ul jd cj c terms hall]
  simp only []
  rw [if_pos]
  · rfl
  · apply foldl_add_all_zero
    intro x hx
    simp only [List.map_map, List.mem_map] at hx
    obtain ⟨t0, ht0, rfl⟩ := hx
    rfl

/-- Witness for `no_new_postings_run_sends_empty_notice`: a scraper
returning nothing for the single term; the recipient gets exactly the
empty notice and nothing is dispatched or committed. -/
theorem no_new_postings_run_sends_empty_notice_witness :
    (∀ t ∈ ["data analyst"], (fun (_ : String) => ([] : List Job)) t = [] ∨
      (fun (l : List Job) => l) ((fun (_ : String) => ([] : List Job)) t) = []) ∧
    run_sentinel [⟨"a@example.com", true, ["data analyst"]⟩] ["data analyst"]
        (fun _ => ([] : List Job)) (fun l => l) false (fun _ => none)
        (fun _ _ => JudgeOutcome.err "e") 1 (fun _ _ => false) (fun _ => true) =
      RunResult.done
        { email_results := []
          empty_notice_results := [("a@example.com", true)]
          commits := [] } :=
  ⟨by decide,
    no_new_postings_run_sends_empty_notice [⟨"a@example.com", true, ["data analyst"]⟩]
      ["data analyst"] (fun _ => ([] : List Job)) (fun l => l) false (fun _ => none)
      (fun _ _ => JudgeOutcome.err "e") 1 (fun _ _ => false) (fun _ => true) (by decide)⟩
